import Mathlib

/-!
Verification of the sdbh history store: deterministic row fingerprints
(SHA-256), the cross-database import pipeline with numeric-coercion
corruption tolerance, and the parameterized SQL query builders with
LIKE-escaping.  Definitions are shallow embeddings of the Rust sources
(src/sdbh/src/db.rs and src/sdbh/src/cli.rs); SQLite itself is external,
so its LIKE matching is modelled from the specification.
-/

set_option maxRecDepth 8000
set_option maxHeartbeats 1600000

namespace Sdbh

/-! ## Generic list helpers -/

/-- Concatenation of the images of a function over a list (flat map). -/
def flatCat {α β : Type} (f : α → List β) : List α → List β
  | [] => []
  | a :: l => f a ++ flatCat f l

theorem flatCat_append {α β : Type} (f : α → List β) (l₁ l₂ : List α) :
    flatCat f (l₁ ++ l₂) = flatCat f l₁ ++ flatCat f l₂ := by
  induction l₁ with
  | nil => rfl
  | cons a l ih => simp [flatCat, ih]

/-! ## 32-bit arithmetic and SHA-256

`row_hash` in db.rs computes a SHA-256 digest (via the sha2 crate) and
renders it as lowercase hex.  We embed SHA-256 (FIPS 180-4) over byte
lists, with 32-bit words represented as naturals reduced mod 2^32. -/

/-- Truncate to a 32-bit word. -/
def w32 (n : Nat) : Nat := n % 4294967296

/-- Right rotation of a 32-bit word. -/
def rotr (n x : Nat) : Nat := w32 ((x >>> n) ||| (x <<< (32 - n)))

def ch (x y z : Nat) : Nat := (x &&& y) ^^^ ((x ^^^ 4294967295) &&& z)

def maj (x y z : Nat) : Nat := (x &&& y) ^^^ (x &&& z) ^^^ (y &&& z)

def bigSigma0 (x : Nat) : Nat := rotr 2 x ^^^ rotr 13 x ^^^ rotr 22 x

def bigSigma1 (x : Nat) : Nat := rotr 6 x ^^^ rotr 11 x ^^^ rotr 25 x

def smallSigma0 (x : Nat) : Nat := rotr 7 x ^^^ rotr 18 x ^^^ (x >>> 3)

def smallSigma1 (x : Nat) : Nat := rotr 17 x ^^^ rotr 19 x ^^^ (x >>> 10)

/-- The 64 SHA-256 round constants (FIPS 180-4, in decimal). -/
def shaK : List Nat :=
  [1116352408, 1899447441, 3049323471, 3921009573, 961987163,
   1508970993, 2453635748, 2870763221, 3624381080, 310598401,
   607225278, 1426881987, 1925078388, 2162078206, 2614888103,
   3248222580, 3835390401, 4022224774, 264347078, 604807628,
   770255983, 1249150122, 1555081692, 1996064986, 2554220882,
   2821834349, 2952996808, 3210313671, 3336571891, 3584528711,
   113926993, 338241895, 666307205, 773529912, 1294757372,
   1396182291, 1695183700, 1986661051, 2177026350, 2456956037,
   2730485921, 2820302411, 3259730800, 3345764771, 3516065817,
   3600352804, 4094571909, 275423344, 430227734, 506948616,
   659060556, 883997877, 958139571, 1322822218, 1537002063,
   1747873779, 1955562222, 2024104815, 2227730452, 2361852424,
   2428436474, 2756734187, 3204031479, 3329325298]

/-- The initial SHA-256 state (FIPS 180-4, in decimal). -/
def shaH0 : List Nat :=
  [1779033703, 3144134277, 1013904242, 2773480762,
   1359893119, 2600822924, 528734635, 1541459225]

/-- Big-endian 8-byte encoding of a natural. -/
def be64 (n : Nat) : List Nat :=
  [(n >>> 56) % 256, (n >>> 48) % 256, (n >>> 40) % 256, (n >>> 32) % 256,
   (n >>> 24) % 256, (n >>> 16) % 256, (n >>> 8) % 256, n % 256]

/-- SHA-256 padding: append 0x80, zeros to 56 mod 64, then the bit length. -/
def padMessage (msg : List Nat) : List Nat :=
  msg ++ [0x80] ++ List.replicate ((119 - msg.length % 64) % 64) 0
      ++ be64 (msg.length * 8)

/-- Accumulator for 64-byte chunking: `cur` holds the current block reversed,
`n` how many bytes it has. -/
def chunkAux : List Nat → List Nat → Nat → List (List Nat)
  | [], cur, _ => if cur.isEmpty then [] else [cur.reverse]
  | b :: rest, cur, n =>
    if n == 63 then (b :: cur).reverse :: chunkAux rest [] 0
    else chunkAux rest (b :: cur) (n + 1)

/-- Split into 64-byte blocks. -/
def toBlocks (l : List Nat) : List (List Nat) := chunkAux l [] 0

/-- Big-endian 32-bit words from bytes. -/
def toWords : List Nat → List Nat
  | b0 :: b1 :: b2 :: b3 :: rest => (((b0 * 256 + b1) * 256 + b2) * 256 + b3) :: toWords rest
  | _ => []

/-- One extension step of the SHA-256 message schedule. -/
def nextWord (w : List Nat) : Nat :=
  w32 (smallSigma1 (w.getD (w.length - 2) 0) + w.getD (w.length - 7) 0 +
       smallSigma0 (w.getD (w.length - 15) 0) + w.getD (w.length - 16) 0)

/-- The 64-word message schedule from the 16 words of one block. -/
def schedule (ws : List Nat) : List Nat :=
  (List.range 48).foldl (fun w _ => w ++ [nextWord w]) ws

/-- One round of the SHA-256 compression function. -/
def compressStep (st : List Nat) (kw : Nat × Nat) : List Nat :=
  match st with
  | [a, b, c, d, e, f, g, h] =>
    let t1 := w32 (h + bigSigma1 e + ch e f g + kw.1 + kw.2)
    let t2 := w32 (bigSigma0 a + maj a b c)
    [w32 (t1 + t2), a, b, c, w32 (d + t1), e, f, g]
  | other => other

/-- Process one 64-byte block into the running hash state. -/
def processBlock (h : List Nat) (block : List Nat) : List Nat :=
  let st := ((schedule (toWords block)).zip shaK).foldl compressStep h
  (h.zip st).map (fun p => w32 (p.1 + p.2))

/-- SHA-256: bytes in, the 32 digest bytes out. -/
def sha256 (msg : List Nat) : List Nat :=
  flatCat (fun w => [(w >>> 24) % 256, (w >>> 16) % 256, (w >>> 8) % 256, w % 256])
    ((toBlocks (padMessage msg)).foldl processBlock shaH0)

/-- One lowercase hex digit. -/
def hexDigit (n : Nat) : Char :=
  if n < 10 then Char.ofNat (48 + n) else Char.ofNat (87 + n)

/-- Lowercase hexadecimal rendering of a byte list (two digits per byte),
as Rust's `format!("{:x}", digest)` renders a sha2 digest. -/
def toLowerHex (bytes : List Nat) : String :=
  String.mk (flatCat (fun b => [hexDigit (b / 16), hexDigit (b % 16)]) bytes)

/-- UTF-8 bytes of one scalar value. -/
def utf8Char (c : Char) : List Nat :=
  let n := c.toNat
  if n < 128 then [n]
  else if n < 2048 then [192 + n / 64, 128 + n % 64]
  else if n < 65536 then [224 + n / 4096, 128 + (n / 64) % 64, 128 + n % 64]
  else [240 + n / 262144, 128 + (n / 4096) % 64, 128 + (n / 64) % 64, 128 + n % 64]

/-- UTF-8 bytes of a string, as Rust hashes `&str` data. -/
def utf8Bytes (s : String) : List Nat := flatCat utf8Char s.data

theorem utf8Bytes_append (a b : String) :
    utf8Bytes (a ++ b) = utf8Bytes a ++ utf8Bytes b := by
  simp [utf8Bytes, String.data_append, flatCat_append]

/-! ## Rust string and integer primitives

The importer's numeric coercion (db.rs `value_to_i64`) leans on Rust's
`str::trim`, `str::split_whitespace`, `str::trim_end_matches` and
`str::parse::<i64>`; these are embedded below. -/

/-- Rust `char::is_whitespace`: the Unicode White_Space property. -/
def rustIsWS (c : Char) : Bool :=
  let n := c.toNat
  (9 ≤ n && n ≤ 13) || n == 32 || n == 133 || n == 160 || n == 5760 ||
  (8192 ≤ n && n ≤ 8202) || n == 8232 || n == 8233 || n == 8239 ||
  n == 8287 || n == 12288

/-- Rust `str::trim`: strip leading and trailing whitespace. -/
def rustTrim (s : String) : String :=
  String.mk (((s.data.dropWhile rustIsWS).reverse.dropWhile rustIsWS).reverse)

/-- Accumulator for whitespace splitting: `cur` holds the current word
reversed. -/
def wordsAux : List Char → List Char → List (List Char)
  | [], cur => if cur.isEmpty then [] else [cur.reverse]
  | c :: rest, cur =>
    if rustIsWS c then
      if cur.isEmpty then wordsAux rest [] else cur.reverse :: wordsAux rest []
    else wordsAux rest (c :: cur)

/-- Rust `str::split_whitespace` as a list of words. -/
def words (l : List Char) : List (List Char) := wordsAux l []

/-- Rust `str::trim_end_matches('*')`: remove every trailing asterisk. -/
def trimEndStars (tok : List Char) : List Char :=
  (tok.reverse.dropWhile (fun c => c == '*')).reverse

/-- Removal of at most one trailing asterisk (what the specification's
"trimming one trailing `*` character if present" describes). -/
def trimOneStar (tok : List Char) : List Char :=
  if tok.getLast? == some '*' then tok.dropLast else tok

def isAsciiDigit (c : Char) : Bool := 48 ≤ c.toNat && c.toNat ≤ 57

def digitsVal (cs : List Char) : Nat :=
  cs.foldl (fun a c => a * 10 + (c.toNat - 48)) 0

/-- A non-empty all-digit run, as a natural. -/
def parseNatDigits (cs : List Char) : Option Nat :=
  if cs.isEmpty then none
  else if cs.all isAsciiDigit then some (digitsVal cs) else none

/-- Rust `str::parse::<i64>`: optional sign, decimal digits, failure on
anything else and on overflow past the i64 range. -/
def rustParseI64 (s : String) : Option Int :=
  match s.data with
  | '+' :: rest =>
    (parseNatDigits rest).bind fun n =>
      if n ≤ 9223372036854775807 then some (n : Int) else none
  | '-' :: rest =>
    (parseNatDigits rest).bind fun n =>
      if n ≤ 9223372036854775808 then some (-(n : Int)) else none
  | cs =>
    (parseNatDigits cs).bind fun n =>
      if n ≤ 9223372036854775807 then some (n : Int) else none

/-- Rust `f64 as i64` on an integral value: saturating to the i64 range. -/
def satI64 (n : Int) : Int :=
  max (-9223372036854775808) (min 9223372036854775807 n)

/-! ## SQLite values and the importer's numeric coercion -/

/-- rusqlite's `types::Value`.  A finite f64 is an exact rational, so the
`Real` payload is embedded as `Rat` (NaN and infinities, which Rust's
`fract() == 0.0` test rejects anyway, have no integral reading). -/
inductive SqlValue where
  | null : SqlValue
  | integer : Int → SqlValue
  | real : Rat → SqlValue
  | text : String → SqlValue
  | blob : List Nat → SqlValue
deriving DecidableEq

/-- `parse_token` in db.rs: trim every trailing `*`, then parse as i64. -/
def parse_token (tok : List Char) : Option Int :=
  rustParseI64 (String.mk (trimEndStars tok))

/-- db.rs `value_to_i64`: the importer's permissive numeric coercion. -/
def value_to_i64 : SqlValue → Option Int
  | .null => none
  | .integer i => some i
  | .real f => if f.den == 1 then some (satI64 f.num) else none
  | .text t =>
    let s := rustTrim t
    if s.isEmpty then none
    else
      let toks := words s.data
      match parse_token (toks.getD 0 []) with
      | some v => some v
      | none => parse_token (toks.getD 1 [])
  | .blob _ => none

/-- The coercion exactly as claim C2 states it: on text, parse the first
whitespace-separated token after trimming ONE trailing `*`, else the
second token under the same rule; otherwise unparseable. -/
def claimCoerce : SqlValue → Option Int
  | .null => none
  | .integer i => some i
  | .real f => if f.den == 1 then some (satI64 f.num) else none
  | .text t =>
    match words (rustTrim t).data with
    | [] => none
    | [t1] => rustParseI64 (String.mk (trimOneStar t1))
    | t1 :: t2 :: _ =>
      match rustParseI64 (String.mk (trimOneStar t1)) with
      | some v => some v
      | none => rustParseI64 (String.mk (trimOneStar t2))
  | .blob _ => none

/-- The coercion as amended: identical to `claimCoerce` except that ALL
trailing `*` characters are trimmed from a token before parsing, which is
what `trim_end_matches` does. -/
def specCoerce : SqlValue → Option Int
  | .null => none
  | .integer i => some i
  | .real f => if f.den == 1 then some (satI64 f.num) else none
  | .text t =>
    match words (rustTrim t).data with
    | [] => none
    | [t1] => parse_token t1
    | t1 :: t2 :: _ =>
      match parse_token t1 with
      | some v => some v
      | none => parse_token t2
  | .blob _ => none

/-! ## History rows and fingerprints (domain.rs / db.rs) -/

/-- domain.rs `HistoryRow`. -/
structure HistoryRow where
  hist_id : Option Int
  cmd : String
  epoch : Int
  ppid : Int
  pwd : String
  salt : Int
deriving DecidableEq

/-- `row.hist_id.map(|v| v.to_string()).unwrap_or_default()`. -/
def histIdStr (r : HistoryRow) : String :=
  match r.hist_id with
  | some v => toString v
  | none => ""

/-- The exact byte stream db.rs `row_hash` feeds the hasher: the six fields
in order, each `update` separated by a newline `update`. -/
def rowHashInput (r : HistoryRow) : List Nat :=
  utf8Bytes (toString r.epoch) ++ utf8Bytes "\n" ++
  utf8Bytes (toString r.ppid) ++ utf8Bytes "\n" ++
  utf8Bytes (toString r.salt) ++ utf8Bytes "\n" ++
  utf8Bytes (histIdStr r) ++ utf8Bytes "\n" ++
  utf8Bytes r.pwd ++ utf8Bytes "\n" ++
  utf8Bytes r.cmd

/-- db.rs `row_hash`: lowercase-hex SHA-256 of the field stream. -/
def row_hash (r : HistoryRow) : String := toLowerHex (sha256 (rowHashInput r))

/-- The fingerprint exactly as the specification words it: SHA-256 over the
concatenation of the six rendered fields with a single newline between
consecutive fields, rendered as lowercase hexadecimal. -/
def specFingerprint (r : HistoryRow) : String :=
  toLowerHex (sha256 (utf8Bytes
    (toString r.epoch ++ "\n" ++ toString r.ppid ++ "\n" ++ toString r.salt ++
     "\n" ++ histIdStr r ++ "\n" ++ r.pwd ++ "\n" ++ r.cmd)))

/-! ## The store (db.rs schema, `insert_history`, `import_from_db`)

The backing SQLite tables are modelled directly: `history` as an ordered
list of (rowid, row) pairs with an AUTOINCREMENT counter, `history_hash`
as an ordered association list keyed by the fingerprint string (its
primary-key uniqueness is what `INSERT OR IGNORE` works against). -/

structure Store where
  nextId : Int
  rows : List (Int × HistoryRow)
  hashes : List (String × Int)
deriving DecidableEq

/-- A database freshly created by `init_schema`: empty tables, rowids
starting at 1. -/
def emptyStore : Store := { nextId := 1, rows := [], hashes := [] }

def hashKeys (s : Store) : List String := s.hashes.map Prod.fst

/-- `SELECT EXISTS(SELECT 1 FROM history_hash WHERE hash=?1)`. -/
def hasHash (s : Store) (h : String) : Bool := (hashKeys s).contains h

/-- db.rs `insert_history`: insert the row, then `INSERT OR IGNORE` its
fingerprint (a duplicate fingerprint is silently skipped — the row itself
is always stored).  Returns the new store and the assigned rowid. -/
def insert_history (s : Store) (r : HistoryRow) : Store × Int :=
  let id := s.nextId
  let h := row_hash r
  ({ nextId := id + 1,
     rows := s.rows ++ [(id, r)],
     hashes := if hasHash s h then s.hashes else s.hashes ++ [(h, id)] },
   id)

/-- A raw row of a source database's `history` table, in the column types
the importer reads (`hist_id`, `epoch`, `ppid`, `salt` as dynamically
typed values, `cmd` and `pwd` as text).  The importer streams these
ordered by the source's rowid ascending. -/
structure SrcRow where
  hist_id : SqlValue
  cmd : String
  epoch : SqlValue
  ppid : SqlValue
  pwd : String
  salt : SqlValue
deriving DecidableEq

/-- The importer's per-row coercion: `epoch`, `ppid`, `salt` must coerce,
`hist_id` may fail and becomes NULL. -/
def parseSrcRow (sr : SrcRow) : Option HistoryRow :=
  match value_to_i64 sr.epoch, value_to_i64 sr.ppid, value_to_i64 sr.salt with
  | some e, some p, some sa =>
    some { hist_id := value_to_i64 sr.hist_id, cmd := sr.cmd, epoch := e,
           ppid := p, pwd := sr.pwd, salt := sa }
  | _, _, _ => none

/-- The importer's running state and counters. -/
structure ImportOutcome where
  store : Store
  considered : Nat
  inserted : Nat
  skipped : Nat
deriving DecidableEq

/-- One iteration of the import loop in db.rs `import_from_db`. -/
def importStep (acc : ImportOutcome) (sr : SrcRow) : ImportOutcome :=
  let acc := { acc with considered := acc.considered + 1 }
  match parseSrcRow sr with
  | none => { acc with skipped := acc.skipped + 1 }
  | some row =>
    let h := row_hash row
    if hasHash acc.store h then acc
    else
      let id := acc.store.nextId
      { acc with
        store :=
          { nextId := id + 1,
            rows := acc.store.rows ++ [(id, row)],
            hashes :=
              if hasHash acc.store h then acc.store.hashes
              else acc.store.hashes ++ [(h, id)] },
        inserted := acc.inserted + 1 }

/-- db.rs `import_from_db`, with the source's `history` rows already
streamed (rowid ascending) as `src`.  The real function additionally
fails before any row when the source lacks a `history` table; that fatal
path carries no counters and is outside this model. -/
def import_from_db (s : Store) (src : List SrcRow) : ImportOutcome :=
  src.foldl importStep { store := s, considered := 0, inserted := 0, skipped := 0 }

/-! ## LIKE escaping and LIKE matching

cli.rs `escape_like` escapes `\`, `%` and `_` by three successive
single-character replacements.  The LIKE predicate itself is evaluated by
SQLite, which is outside this repository; `likeMatch` is modelled from the
specification (§4.3): `%` matches any sequence, `_` one character, and the
declared escape character `\` makes the following character literal.  The
spec leaves the case policy to the implementation ("implementers must
choose and document one"); the model matches case-sensitively. -/

/-- Replace every occurrence of the character `c` by the string `r`
(one `str::replace` with a single-character pattern). -/
def replaceChar (c : Char) (r : List Char) (s : List Char) : List Char :=
  flatCat (fun x => if x = c then r else [x]) s

/-- cli.rs `escape_like`. -/
def escape_like (s : String) : String :=
  String.mk (replaceChar '_' ['\\', '_']
    (replaceChar '%' ['\\', '%']
      (replaceChar '\\' ['\\', '\\'] s.data)))

/-- `f t || f t.tail || … || f []`: tries every suffix of the text. -/
def tryAll (f : List Char → Bool) : List Char → Bool
  | [] => f []
  | c :: ts => f (c :: ts) || tryAll f ts

/-- SQLite `LIKE ? ESCAPE '\'` over explicit character lists (modelled from
the spec, case-sensitively). -/
def likeMatch : List Char → List Char → Bool
  | [], t => t.isEmpty
  | p :: ps, t =>
    if p = '%' then tryAll (likeMatch ps) t
    else
      match t with
      | [] => false
      | c :: ts =>
        if p = '_' then likeMatch ps ts
        else if p = '\\' then
          match ps with
          | [] => false
          | q :: ps2 => if c = q then likeMatch ps2 ts else false
        else if c = p then likeMatch ps ts else false

/-- LIKE matching on strings: does `t` match the pattern `pat`? -/
def likeMatchS (pat t : String) : Bool := likeMatch pat.data t.data

/-! ## The query builders (cli.rs)

Each builder is a pure function of its argument struct plus the ambient
inputs the Rust code reads on the way: the process environment (consulted
by `session_filter` through `SDBH_SALT`/`SDBH_PPID`), the current working
directory (consulted by `location_filter` when no override is given) and
the current Unix time (consulted by `days_cutoff_epoch`).  Fields of the
argument structs that the SQL construction never reads (`fzf`,
`multi_select`, `format`, `verbose`) are omitted. -/

/-- The process environment: variable name to value (None when unset or
not Unicode, as `std::env::var(..).ok()`). -/
def Env : Type := String → Option String

/-- cli.rs `session_filter`. -/
def session_filter (session_only : Bool) (env : Env) : Option (Int × Int) :=
  if session_only then
    match env "SDBH_SALT" with
    | none => none
    | some s =>
      match rustParseI64 s with
      | none => none
      | some salt =>
        match env "SDBH_PPID" with
        | none => none
        | some p =>
          match rustParseI64 p with
          | none => none
          | some ppid => some (salt, ppid)
  else none

/-- cli.rs `location_filter`. -/
def location_filter (here under : Bool) (pwd_override : Option String)
    (cwd : Option String) : Option (String × Bool) :=
  if !(here || under) then none
  else
    match pwd_override with
    | some pwd => some (pwd, under)
    | none =>
      match cwd with
      | some pwd => some (pwd, under)
      | none => none

/-- cli.rs `days_cutoff_epoch` with the current time passed in. -/
def days_cutoff_epoch (now : Int) (days : Nat) : Int := now - (days : Int) * 86400

def u32Max : Nat := 4294967295

structure SummaryArgs where
  query : Option String
  limit : Nat
  starts : Bool
  all : Bool
  session : Bool
  pwd : Bool
  pwd_override : Option String
  here : Bool
  under : Bool
deriving DecidableEq

/-- cli.rs `build_summary_sql`. -/
def build_summary_sql (args : SummaryArgs) (env : Env) (cwd : Option String) :
    String × List String :=
  let select :=
    "SELECT max(id) as mid, datetime(max(epoch), 'unixepoch', 'localtime') as dt, count(*) as cnt, cmd"
      ++ (if args.pwd then ", pwd" else "")
  let sb : String × List String := (select ++ " FROM history WHERE 1=1 ", [])
  let sb :=
    match session_filter args.session env with
    | some (salt, ppid) =>
      (sb.1 ++ "AND salt=? AND ppid=? ", sb.2 ++ [toString salt, toString ppid])
    | none => sb
  let sb :=
    match args.query with
    | some q =>
      let like := if args.starts then q ++ "%" else "%" ++ q ++ "%"
      (sb.1 ++ "AND cmd LIKE ? ESCAPE '\\' ", sb.2 ++ [escape_like like])
    | none => sb
  let sb :=
    match location_filter args.here args.under args.pwd_override cwd with
    | some (pwd, under) =>
      if under then
        (sb.1 ++ "AND pwd LIKE ? ESCAPE '\\' ", sb.2 ++ [escape_like pwd ++ "%"])
      else (sb.1 ++ "AND pwd = ? ", sb.2 ++ [pwd])
    | none => sb
  let sb := (sb.1 ++ "GROUP BY cmd " ++ (if args.pwd then ", pwd " else ""), sb.2)
  let limit := if args.all then u32Max else args.limit
  (sb.1 ++ "ORDER BY max(id) DESC " ++ "LIMIT ?", sb.2 ++ [toString limit])

structure ListArgs where
  query : Option String
  limit : Nat
  offset : Nat
  all : Bool
  session : Bool
  pwd_override : Option String
  here : Bool
  under : Bool
deriving DecidableEq

/-- cli.rs `build_list_sql`. -/
def build_list_sql (args : ListArgs) (env : Env) (cwd : Option String) :
    String × List String :=
  let sb : String × List String :=
    ("SELECT id, datetime(epoch, 'unixepoch', 'localtime') as dt, pwd, cmd, epoch FROM history WHERE 1=1 ",
     [])
  let sb :=
    match session_filter args.session env with
    | some (salt, ppid) =>
      (sb.1 ++ "AND salt=? AND ppid=? ", sb.2 ++ [toString salt, toString ppid])
    | none => sb
  let sb :=
    match args.query with
    | some q =>
      (sb.1 ++ "AND cmd LIKE ? ESCAPE '\\' ", sb.2 ++ [escape_like ("%" ++ q ++ "%")])
    | none => sb
  let sb :=
    match location_filter args.here args.under args.pwd_override cwd with
    | some (pwd, under) =>
      if under then
        (sb.1 ++ "AND pwd LIKE ? ESCAPE '\\' ", sb.2 ++ [escape_like pwd ++ "%"])
      else (sb.1 ++ "AND pwd = ? ", sb.2 ++ [pwd])
    | none => sb
  let limit := if args.all then u32Max else args.limit
  (sb.1 ++ "ORDER BY epoch ASC, id ASC " ++ "LIMIT ? OFFSET ?",
   sb.2 ++ [toString limit, toString args.offset])

structure SearchArgs where
  query : String
  limit : Nat
  all : Bool
  session : Bool
  since_epoch : Option Int
  days : Option Nat
  pwd_override : Option String
  here : Bool
  under : Bool
deriving DecidableEq

/-- cli.rs `build_search_sql`. -/
def build_search_sql (args : SearchArgs) (env : Env) (cwd : Option String)
    (now : Int) : String × List String :=
  let sb : String × List String :=
    ("SELECT id, datetime(epoch, 'unixepoch', 'localtime') as dt, pwd, cmd, epoch FROM history WHERE 1=1 ",
     [])
  let sb :=
    match args.since_epoch with
    | some since => (sb.1 ++ "AND epoch >= ? ", sb.2 ++ [toString since])
    | none =>
      match args.days with
      | some days =>
        (sb.1 ++ "AND epoch >= ? ", sb.2 ++ [toString (days_cutoff_epoch now days)])
      | none => sb
  let sb :=
    match session_filter args.session env with
    | some (salt, ppid) =>
      (sb.1 ++ "AND salt=? AND ppid=? ", sb.2 ++ [toString salt, toString ppid])
    | none => sb
  let sb :=
    (sb.1 ++ "AND cmd LIKE ? ESCAPE '\\' ",
     sb.2 ++ ["%" ++ escape_like args.query ++ "%"])
  let sb :=
    match location_filter args.here args.under args.pwd_override cwd with
    | some (pwd, under) =>
      if under then
        (sb.1 ++ "AND pwd LIKE ? ESCAPE '\\' ", sb.2 ++ [escape_like pwd ++ "%"])
      else (sb.1 ++ "AND pwd = ? ", sb.2 ++ [pwd])
    | none => sb
  let limit := if args.all then u32Max else args.limit
  (sb.1 ++ "ORDER BY epoch DESC, id DESC " ++ "LIMIT ?", sb.2 ++ [toString limit])

structure StatsTopArgs where
  days : Nat
  limit : Nat
  all : Bool
  session : Bool
deriving DecidableEq

/-- cli.rs `build_stats_top_sql`. -/
def build_stats_top_sql (args : StatsTopArgs) (env : Env) (now : Int) :
    String × List String :=
  let sb : String × List String := ("SELECT count(*) as cnt, cmd FROM history WHERE 1=1 ", [])
  let sb :=
    match session_filter args.session env with
    | some (salt, ppid) =>
      (sb.1 ++ "AND salt=? AND ppid=? ", sb.2 ++ [toString salt, toString ppid])
    | none => sb
  let sb :=
    (sb.1 ++ "AND epoch >= ? ", sb.2 ++ [toString (days_cutoff_epoch now args.days)])
  let limit := if args.all then u32Max else args.limit
  (sb.1 ++ "GROUP BY cmd ORDER BY cnt DESC, max(epoch) DESC LIMIT ?",
   sb.2 ++ [toString limit])

structure StatsByPwdArgs where
  days : Nat
  limit : Nat
  all : Bool
  session : Bool
deriving DecidableEq

/-- cli.rs `build_stats_by_pwd_sql`. -/
def build_stats_by_pwd_sql (args : StatsByPwdArgs) (env : Env) (now : Int) :
    String × List String :=
  let sb : String × List String :=
    ("SELECT count(*) as cnt, pwd, cmd FROM history WHERE 1=1 ", [])
  let sb :=
    match session_filter args.session env with
    | some (salt, ppid) =>
      (sb.1 ++ "AND salt=? AND ppid=? ", sb.2 ++ [toString salt, toString ppid])
    | none => sb
  let sb :=
    (sb.1 ++ "AND epoch >= ? ", sb.2 ++ [toString (days_cutoff_epoch now args.days)])
  let limit := if args.all then u32Max else args.limit
  (sb.1 ++ "GROUP BY pwd, cmd ORDER BY cnt DESC, max(epoch) DESC LIMIT ?",
   sb.2 ++ [toString limit])

structure StatsDailyArgs where
  days : Nat
  all : Bool
  session : Bool
deriving DecidableEq

/-- cli.rs `build_stats_daily_sql`.  Note: it pushes no LIMIT clause, and
`StatsDailyArgs` carries no limit at all. -/
def build_stats_daily_sql (args : StatsDailyArgs) (env : Env) (now : Int) :
    String × List String :=
  let sb : String × List String :=
    ("SELECT date(epoch, 'unixepoch', 'localtime') as day, count(*) as cnt FROM history WHERE 1=1 ",
     [])
  let sb :=
    match session_filter args.session env with
    | some (salt, ppid) =>
      (sb.1 ++ "AND salt=? AND ppid=? ", sb.2 ++ [toString salt, toString ppid])
    | none => sb
  let sb :=
    (sb.1 ++ "AND epoch >= ? ", sb.2 ++ [toString (days_cutoff_epoch now args.days)])
  (sb.1 ++ "GROUP BY day ORDER BY day ASC", sb.2)

/-! ## Concrete fixtures used by witnesses and counterexamples -/

/-- An environment with no variables set. -/
def noEnv : Env := fun _ => none

/-- An environment whose SDBH_SALT is set but not an integer. -/
def badEnv : Env := fun k => if k == "SDBH_SALT" then some "zzz" else none

def rowA : HistoryRow :=
  { hist_id := some 1, cmd := "echo hi", epoch := 1700000000, ppid := 10,
    pwd := "/tmp", salt := 99 }

def srcA : SrcRow :=
  { hist_id := .integer 1, cmd := "echo hi", epoch := .integer 1700000000,
    ppid := .integer 10, pwd := "/tmp", salt := .integer 99 }

def srcB : SrcRow :=
  { hist_id := .integer 2, cmd := "echo bye", epoch := .integer 1700000001,
    ppid := .integer 10, pwd := "/tmp", salt := .integer 99 }

/-! ## Import loop lemmas -/

theorem importStep_considered (acc : ImportOutcome) (sr : SrcRow) :
    (importStep acc sr).considered = acc.considered + 1 := by
  unfold importStep
  cases parseSrcRow sr with
  | none => rfl
  | some row => by_cases h : hasHash acc.store (row_hash row) <;> simp [h]

theorem foldl_importStep_considered (src : List SrcRow) (acc : ImportOutcome) :
    (src.foldl importStep acc).considered = acc.considered + src.length := by
  induction src generalizing acc with
  | nil => simp
  | cons sr rest ih =>
    simp only [List.foldl_cons, ih, importStep_considered, List.length_cons]
    omega

theorem import_considered (s : Store) (src : List SrcRow) :
    (import_from_db s src).considered = src.length := by
  simp [import_from_db, foldl_importStep_considered]

/-- A skipped row (unparseable or duplicate fingerprint) leaves the store
untouched; spelled out as the three shapes `importStep` can take. -/
theorem importStep_cases (acc : ImportOutcome) (sr : SrcRow) :
    (parseSrcRow sr = none ∧
      importStep acc sr = { acc with considered := acc.considered + 1,
                                     skipped := acc.skipped + 1 }) ∨
    (∃ row, parseSrcRow sr = some row ∧
      hasHash acc.store (row_hash row) = true ∧
      importStep acc sr = { acc with considered := acc.considered + 1 }) ∨
    (∃ row, parseSrcRow sr = some row ∧
      hasHash acc.store (row_hash row) = false ∧
      importStep acc sr =
        { acc with
          considered := acc.considered + 1,
          inserted := acc.inserted + 1,
          store :=
            { nextId := acc.store.nextId + 1,
              rows := acc.store.rows ++ [(acc.store.nextId, row)],
              hashes := acc.store.hashes ++ [(row_hash row, acc.store.nextId)] } }) := by
  cases hp : parseSrcRow sr with
  | none => exact Or.inl ⟨rfl, by simp [importStep, hp]⟩
  | some row =>
    by_cases hh : hasHash acc.store (row_hash row)
    · exact Or.inr (Or.inl ⟨row, rfl, hh, by simp [importStep, hp, hh]⟩)
    · refine Or.inr (Or.inr ⟨row, rfl, by simp [hh], ?_⟩)
      simp [importStep, hp, hh]

theorem hasHash_iff (s : Store) (h : String) : hasHash s h = true ↔ h ∈ hashKeys s :=
  List.elem_iff

/-- If every parseable source row's fingerprint is already present,
the import changes nothing and inserts nothing. -/
theorem foldl_importStep_no_insert (src : List SrcRow) (acc : ImportOutcome)
    (h : ∀ sr ∈ src, ∀ row, parseSrcRow sr = some row →
      row_hash row ∈ hashKeys acc.store) :
    (src.foldl importStep acc).store = acc.store ∧
    (src.foldl importStep acc).inserted = acc.inserted := by
  induction src generalizing acc with
  | nil => exact ⟨rfl, rfl⟩
  | cons sr rest ih =>
    have hstep : (importStep acc sr).store = acc.store ∧
        (importStep acc sr).inserted = acc.inserted := by
      rcases importStep_cases acc sr with ⟨_, he⟩ | ⟨row, hp, _, he⟩ | ⟨row, hp, hh, he⟩
      · rw [he]; exact ⟨rfl, rfl⟩
      · rw [he]; exact ⟨rfl, rfl⟩
      · exact absurd ((hasHash_iff _ _).2 (h sr (by simp) row hp)) (by simp [hh])
    have hrest : ∀ sr' ∈ rest, ∀ row, parseSrcRow sr' = some row →
        row_hash row ∈ hashKeys (importStep acc sr).store := by
      intro sr' hm row hp
      rw [hstep.1]
      exact h sr' (by simp [hm]) row hp
    rw [List.foldl_cons]
    rcases ih (importStep acc sr) hrest with ⟨h1, h2⟩
    exact ⟨h1.trans hstep.1, h2.trans hstep.2⟩

/-- When every source row parses and the parsed fingerprints are pairwise
distinct and all absent from the store, the import inserts them all and
appends exactly those fingerprints to the hash table keys. -/
theorem foldl_importStep_all_insert (src : List SrcRow) (acc : ImportOutcome)
    (hp : ∀ sr ∈ src, (parseSrcRow sr).isSome = true)
    (hd : ((src.filterMap parseSrcRow).map row_hash).Nodup)
    (hn : ∀ sr ∈ src, ∀ row, parseSrcRow sr = some row →
      row_hash row ∉ hashKeys acc.store) :
    (src.foldl importStep acc).inserted = acc.inserted + src.length ∧
    hashKeys (src.foldl importStep acc).store =
      hashKeys acc.store ++ (src.filterMap parseSrcRow).map row_hash := by
  induction src generalizing acc with
  | nil => simp
  | cons sr rest ih =>
    obtain ⟨row, hrow⟩ : ∃ row, parseSrcRow sr = some row := by
      have := hp sr (by simp)
      cases h : parseSrcRow sr with
      | none => rw [h] at this; simp at this
      | some r => exact ⟨r, rfl⟩
    have hmapcons : (sr :: rest).filterMap parseSrcRow = row :: rest.filterMap parseSrcRow := by
      simp [List.filterMap_cons, hrow]
    have hnotin : row_hash row ∉ hashKeys acc.store := hn sr (by simp) row hrow
    have hfresh : hasHash acc.store (row_hash row) = false := by
      by_cases h : hasHash acc.store (row_hash row)
      · exact absurd ((hasHash_iff _ _).1 h) hnotin
      · simpa using h
    have hstep : importStep acc sr =
        { acc with
          considered := acc.considered + 1,
          inserted := acc.inserted + 1,
          store :=
            { nextId := acc.store.nextId + 1,
              rows := acc.store.rows ++ [(acc.store.nextId, row)],
              hashes := acc.store.hashes ++ [(row_hash row, acc.store.nextId)] } } := by
      simp [importStep, hrow, hfresh]
    have hdrest : ((rest.filterMap parseSrcRow).map row_hash).Nodup := by
      rw [hmapcons] at hd
      exact (List.nodup_cons.1 (by simpa using hd)).2
    have hheadnot : row_hash row ∉ (rest.filterMap parseSrcRow).map row_hash := by
      rw [hmapcons] at hd
      exact (List.nodup_cons.1 (by simpa using hd)).1
    have hkeysstep : hashKeys (importStep acc sr).store =
        hashKeys acc.store ++ [row_hash row] := by
      rw [hstep]; simp [hashKeys]
    have hnrest : ∀ sr' ∈ rest, ∀ row', parseSrcRow sr' = some row' →
        row_hash row' ∉ hashKeys (importStep acc sr).store := by
      intro sr' hm row' hp'
      rw [hkeysstep]
      intro hmem
      rcases List.mem_append.1 hmem with h1 | h1
      · exact hn sr' (by simp [hm]) row' hp' h1
      · have : row_hash row' = row_hash row := by simpa using h1
        apply hheadnot
        rw [← this]
        exact List.mem_map_of_mem row_hash (List.mem_filterMap.2 ⟨sr', hm, hp'⟩)
    rw [List.foldl_cons]
    rcases ih (importStep acc sr) (fun sr' hm => hp sr' (by simp [hm])) hdrest hnrest
      with ⟨h1, h2⟩
    constructor
    · rw [h1, hstep]; simp [List.length_cons]; omega
    · rw [h2, hkeysstep, hmapcons]; simp

/-! ## C1: import idempotence -/

/-- C1 (amended): importing a source whose rows all parse and whose parsed
fingerprints are pairwise distinct into a fresh store reports
(considered = N, inserted = N); re-importing the same source into the
resulting store reports (considered = N, inserted = 0); and `considered`
counts every source row of every import, regardless of outcome. -/
theorem import_idempotence (src : List SrcRow)
    (hp : ∀ sr ∈ src, (parseSrcRow sr).isSome = true)
    (hd : ((src.filterMap parseSrcRow).map row_hash).Nodup) :
    (∀ (s : Store) (l : List SrcRow), (import_from_db s l).considered = l.length) ∧
    (import_from_db emptyStore src).inserted = src.length ∧
    (import_from_db (import_from_db emptyStore src).store src).inserted = 0 := by
  have hfirst := foldl_importStep_all_insert src
    { store := emptyStore, considered := 0, inserted := 0, skipped := 0 }
    hp hd (by intro sr _ row _; simp [hashKeys, emptyStore])
  refine ⟨fun s l => import_considered s l, ?_, ?_⟩
  · simpa [import_from_db] using hfirst.1
  · have hkeys : hashKeys (import_from_db emptyStore src).store =
        (src.filterMap parseSrcRow).map row_hash := by
      simpa [import_from_db, hashKeys, emptyStore] using hfirst.2
    have hall : ∀ sr ∈ src, ∀ row, parseSrcRow sr = some row →
        row_hash row ∈ hashKeys (import_from_db emptyStore src).store := by
      intro sr hm row hparse
      rw [hkeys]
      exact List.mem_map_of_mem row_hash (List.mem_filterMap.2 ⟨sr, hm, hparse⟩)
    simpa [import_from_db] using
      (foldl_importStep_no_insert src
        { store := (import_from_db emptyStore src).store, considered := 0,
          inserted := 0, skipped := 0 } hall).2

/-- Witness for C1: a concrete two-row source with distinct fingerprints. -/
theorem import_idempotence_witness :
    (import_from_db emptyStore [srcA, srcB]).inserted = 2 ∧
    (import_from_db (import_from_db emptyStore [srcA, srcB]).store
      [srcA, srcB]).inserted = 0 :=
  ⟨(import_idempotence [srcA, srcB] (by decide) (by decide)).2.1,
   (import_idempotence [srcA, srcB] (by decide) (by decide)).2.2⟩

/-- Counterexample to C1 as stated: a source database may contain two
identical (fully parseable) rows — the history table has no uniqueness
constraint — and then the first import into a fresh store reports
inserted = 1, not inserted = N = 2. -/
theorem import_idempotence_counterexample :
    (∀ sr ∈ [srcA, srcA], (parseSrcRow sr).isSome = true) ∧
    (import_from_db emptyStore [srcA, srcA]).considered = 2 ∧
    (import_from_db emptyStore [srcA, srcA]).inserted = 1 ∧
    (import_from_db emptyStore [srcA, srcA]).inserted ≠ 2 := by
  refine ⟨by decide, by decide, ?_, ?_⟩ <;> decide

/-! ## C4: the deduplication invariant -/

/-- The claim's invariant as stated: no two stored history rows have equal
fingerprints. -/
@[reducible] def RowFingerprintsDistinct (s : Store) : Prop :=
  (s.rows.map (fun p => row_hash p.2)).Nodup

/-- What actually holds in every reachable store: the fingerprint table's
keys are pairwise distinct (its primary key is the sole dedup mechanism),
and every stored row's fingerprint is recorded among them. -/
def StoreInv (s : Store) : Prop :=
  (hashKeys s).Nodup ∧ ∀ p ∈ s.rows, row_hash p.2 ∈ hashKeys s

/-- Store states reachable from a fresh database by insert and import
operations. -/
inductive Reachable : Store → Prop
  | empty : Reachable emptyStore
  | insert (s : Store) (r : HistoryRow) : Reachable s →
      Reachable (insert_history s r).1
  | imported (s : Store) (src : List SrcRow) : Reachable s →
      Reachable (import_from_db s src).store

theorem insert_history_storeInv (s : Store) (r : HistoryRow) (h : StoreInv s) :
    StoreInv (insert_history s r).1 := by
  obtain ⟨hk, hr⟩ := h
  have hrows : (insert_history s r).1.rows = s.rows ++ [(s.nextId, r)] := by
    simp [insert_history]
  by_cases hh : hasHash s (row_hash r)
  · have hkeys : hashKeys (insert_history s r).1 = hashKeys s := by
      simp [insert_history, hashKeys, hh]
    constructor
    · rw [hkeys]; exact hk
    · intro p hp
      rw [hkeys]
      rw [hrows] at hp
      rcases List.mem_append.1 hp with h1 | h1
      · exact hr p h1
      · have : p = (s.nextId, r) := by simpa using h1
        subst this
        exact (hasHash_iff _ _).1 hh
  · have hnot : row_hash r ∉ hashKeys s := fun hmem =>
      absurd ((hasHash_iff _ _).2 hmem) (by simpa using hh)
    have hkeys : hashKeys (insert_history s r).1 = hashKeys s ++ [row_hash r] := by
      simp [insert_history, hashKeys, hh]
    constructor
    · rw [hkeys, List.nodup_append]
      exact ⟨hk, List.nodup_singleton _, fun x hx hx2 => hnot ((by simpa using hx2) ▸ hx)⟩
    · intro p hp
      rw [hkeys]
      rw [hrows] at hp
      rcases List.mem_append.1 hp with h1 | h1
      · exact List.mem_append.2 (Or.inl (hr p h1))
      · have : p = (s.nextId, r) := by simpa using h1
        subst this
        simp

/-- The import loop preserves the store invariant and only appends rows
whose fingerprints are pairwise distinct and absent from the hash table it
started from. -/
theorem foldl_importStep_fresh (src : List SrcRow) (acc : ImportOutcome)
    (h : StoreInv acc.store) :
    StoreInv (src.foldl importStep acc).store ∧
    ∃ new : List (Int × HistoryRow),
      (src.foldl importStep acc).store.rows = acc.store.rows ++ new ∧
      (new.map (fun p => row_hash p.2)).Nodup ∧
      ∀ p ∈ new, row_hash p.2 ∉ hashKeys acc.store := by
  induction src generalizing acc with
  | nil => exact ⟨h, [], by simp, by simp, by simp⟩
  | cons sr rest ih =>
    rw [List.foldl_cons]
    rcases importStep_cases acc sr with ⟨_, he⟩ | ⟨row, _, _, he⟩ | ⟨row, _, hh, he⟩
    · have hst : (importStep acc sr).store = acc.store := by rw [he]
      have := ih (importStep acc sr) (by rw [hst]; exact h)
      rw [hst] at this
      exact this
    · have hst : (importStep acc sr).store = acc.store := by rw [he]
      have := ih (importStep acc sr) (by rw [hst]; exact h)
      rw [hst] at this
      exact this
    · have hst : (importStep acc sr).store =
          { nextId := acc.store.nextId + 1,
            rows := acc.store.rows ++ [(acc.store.nextId, row)],
            hashes := acc.store.hashes ++ [(row_hash row, acc.store.nextId)] } := by
        rw [he]
      have hnot : row_hash row ∉ hashKeys acc.store := fun hmem =>
        absurd ((hasHash_iff _ _).2 hmem) (by simp [hh])
      have hkeys1 : hashKeys (importStep acc sr).store =
          hashKeys acc.store ++ [row_hash row] := by
        rw [hst]; simp [hashKeys]
      have hrows0 : (importStep acc sr).store.rows =
          acc.store.rows ++ [(acc.store.nextId, row)] := by
        rw [hst]
      have hinv1 : StoreInv (importStep acc sr).store := by
        constructor
        · rw [hkeys1, List.nodup_append]
          exact ⟨h.1, List.nodup_singleton _,
            fun x hx hx2 => hnot ((by simpa using hx2) ▸ hx)⟩
        · intro p hp
          rw [hkeys1]
          rw [hrows0] at hp
          rcases List.mem_append.1 hp with h1 | h1
          · exact List.mem_append.2 (Or.inl (h.2 p h1))
          · have : p = (acc.store.nextId, row) := by simpa using h1
            subst this
            simp
      obtain ⟨hinvf, new1, hrows1, hnodup1, hfresh1⟩ := ih (importStep acc sr) hinv1
      refine ⟨hinvf, (acc.store.nextId, row) :: new1, ?_, ?_, ?_⟩
      · rw [hrows1, hrows0, List.append_assoc]
        rfl
      · rw [List.map_cons, List.nodup_cons]
        refine ⟨?_, hnodup1⟩
        intro hmem
        obtain ⟨p, hp1, hp2⟩ := List.mem_map.1 hmem
        refine hfresh1 p hp1 ?_
        rw [hkeys1]
        exact List.mem_append.2 (Or.inr (by simp [hp2]))
      · intro p hp
        rcases List.mem_cons.1 hp with h1 | h1
        · rw [h1]; exact hnot
        · intro hmem
          refine hfresh1 p h1 ?_
          rw [hkeys1]
          exact List.mem_append.2 (Or.inl hmem)

/-- C4 (amended): deduplication is enforced at the fingerprint-table level.
In every store state reachable by insert and import operations, the
fingerprint-table keys are pairwise distinct and every stored row's
fingerprint is recorded among them; and on every store satisfying that
invariant, `import_from_db` only appends rows, each appended row's
fingerprint differing from every already-stored row's fingerprint and from
the other appended rows' — import never stores a row whose fingerprint
equals that of an already-stored row.  `insert_history`, however, always
stores the presented row even when its fingerprint duplicates a stored
one; only the fingerprint entry is insert-or-ignore. -/
theorem dedup_invariant :
    (∀ s : Store, Reachable s → StoreInv s) ∧
    (∀ (s : Store) (src : List SrcRow), StoreInv s →
      ∃ new : List (Int × HistoryRow),
        (import_from_db s src).store.rows = s.rows ++ new ∧
        (new.map (fun p => row_hash p.2)).Nodup ∧
        ∀ p ∈ new, row_hash p.2 ∉ s.rows.map (fun q => row_hash q.2)) := by
  have himp : ∀ (s : Store) (src : List SrcRow), StoreInv s →
      StoreInv (import_from_db s src).store ∧
      ∃ new : List (Int × HistoryRow),
        (import_from_db s src).store.rows = s.rows ++ new ∧
        (new.map (fun p => row_hash p.2)).Nodup ∧
        ∀ p ∈ new, row_hash p.2 ∉ hashKeys s := fun s src h =>
    foldl_importStep_fresh src
      { store := s, considered := 0, inserted := 0, skipped := 0 } h
  constructor
  · intro s hreach
    induction hreach with
    | empty =>
      exact ⟨by simp [emptyStore, hashKeys], by simp [emptyStore]⟩
    | insert s r _ ih => exact insert_history_storeInv s r ih
    | imported s src _ ih => exact (himp s src ih).1
  · intro s src hinv
    obtain ⟨-, new, h1, h2, h3⟩ := himp s src hinv
    refine ⟨new, h1, h2, ?_⟩
    intro p hp hmem
    obtain ⟨q, hq1, hq2⟩ := List.mem_map.1 hmem
    exact h3 p hp (hq2 ▸ hinv.2 q hq1)

/-- Counterexample to C4 as stated: inserting the same row twice stores two
history rows with equal fingerprints (`insert_history` always inserts the
row; only the fingerprint entry is insert-or-ignore). -/
theorem dedup_invariant_counterexample :
    ¬ RowFingerprintsDistinct
        (insert_history (insert_history emptyStore rowA).1 rowA).1 := by
  decide

/-! ## C2: the numeric coercion -/

theorem dropWhile_eq_cons {α : Type} (p : α → Bool) :
    ∀ (l : List α) (c : α) (cs : List α), l.dropWhile p = c :: cs → p c = false := by
  intro l
  induction l with
  | nil => intro c cs h; simp [List.dropWhile] at h
  | cons a t ih =>
    intro c cs h
    rw [List.dropWhile_cons] at h
    by_cases hp : p a
    · rw [if_pos hp] at h; exact ih c cs h
    · rw [if_neg hp] at h
      cases h
      simpa using hp

theorem wordsAux_ne_nil (l : List Char) (cur : List Char) (h : ¬ cur.isEmpty) :
    wordsAux l cur ≠ [] := by
  induction l generalizing cur with
  | nil => simp [wordsAux, h]
  | cons c rest ih =>
    by_cases hws : rustIsWS c
    · simp [wordsAux, hws, h]
    · simp only [wordsAux, hws, Bool.false_eq_true, if_false]
      exact ih (c :: cur) (by simp)

/-- The first character of a trimmed string is never whitespace. -/
theorem rustTrim_head_not_ws (t : String) (c : Char) (cs : List Char)
    (h : (rustTrim t).data = c :: cs) : rustIsWS c = false := by
  have h' : ((t.data.dropWhile rustIsWS).reverse.dropWhile rustIsWS).reverse = c :: cs := h
  have hsuf : (t.data.dropWhile rustIsWS).reverse.dropWhile rustIsWS <:+
      (t.data.dropWhile rustIsWS).reverse := List.dropWhile_suffix _
  have hpre := List.reverse_prefix.2 hsuf
  rw [List.reverse_reverse] at hpre
  rw [h'] at hpre
  obtain ⟨tail, htail⟩ := hpre
  exact dropWhile_eq_cons rustIsWS t.data c (cs ++ tail) htail.symm

/-- C2 (amended): the importer's coercion accepts a pure integer as itself;
an integral float as its (i64-saturated) integral value; for text it
parses the first whitespace-separated token after trimming ALL trailing
`*` characters, falling back to the second token under the same rule; and
everything else is unparseable. -/
theorem coercion_spec (v : SqlValue) : value_to_i64 v = specCoerce v := by
  cases v with
  | null => rfl
  | integer i => rfl
  | real f => rfl
  | blob b => rfl
  | text t =>
    simp only [value_to_i64, specCoerce]
    by_cases he : (rustTrim t).isEmpty
    · have hemp : rustTrim t = "" := (String.isEmpty_iff _).1 he
      simp only [he, hemp, words, wordsAux, if_true]
      simp [wordsAux]
      intro hcontra
      exact absurd hcontra (by decide)
    · have hdata : (rustTrim t).data ≠ [] := by
        intro hnil
        exact he (by rw [String.isEmpty_iff]; exact String.ext hnil)
      obtain ⟨c, cs, hcons⟩ : ∃ c cs, (rustTrim t).data = c :: cs := by
        cases hh : (rustTrim t).data with
        | nil => exact absurd hh hdata
        | cons a b => exact ⟨a, b, rfl⟩
      have hws : rustIsWS c = false := rustTrim_head_not_ws t c cs hcons
      rw [if_neg (by simpa using he), hcons]
      rw [words, wordsAux, hws]
      simp only [Bool.false_eq_true, if_false]
      cases hw : wordsAux cs [c] with
      | nil => exact absurd hw (wordsAux_ne_nil cs [c] (by simp))
      | cons w1 rest =>
        cases rest with
        | nil =>
          have hnil : parse_token ([] : List Char) = none := rfl
          cases hp : parse_token w1 <;> simp [List.getD, hp, hnil]
        | cons w2 rest2 =>
          cases hp : parse_token w1 <;> simp [List.getD, hp]

/-- Counterexample to C2 as stated: on the text value "5**" the code trims
both trailing asterisks and parses 5, while the claimed one-asterisk rule
leaves "5*", which fails, making the field unparseable. -/
theorem coercion_counterexample :
    value_to_i64 (SqlValue.text "5**") = some 5 ∧
    claimCoerce (SqlValue.text "5**") = none ∧
    value_to_i64 (SqlValue.text "5**") ≠ claimCoerce (SqlValue.text "5**") := by
  refine ⟨by decide, by decide, by decide⟩

/-! ## C5: fingerprint = SHA-256 of the newline-joined fields -/

/-- C5: `row_hash` is the lowercase-hex SHA-256 of the fields concatenated
in order with one newline between consecutive fields; rows with identical
field tuples therefore have identical fingerprints. -/
theorem fingerprint_spec :
    (∀ r : HistoryRow, row_hash r = specFingerprint r) ∧
    (∀ a b : HistoryRow, a.hist_id = b.hist_id → a.cmd = b.cmd →
      a.epoch = b.epoch → a.ppid = b.ppid → a.pwd = b.pwd → a.salt = b.salt →
      row_hash a = row_hash b) := by
  constructor
  · intro r
    unfold row_hash specFingerprint rowHashInput
    congr 2
    simp only [utf8Bytes_append, List.append_assoc]
  · intro a b h1 h2 h3 h4 h5 h6
    have : a = b := by cases a; cases b; simp_all
    rw [this]

/-! ## LIKE escaping: characterization and round trips -/

/-- What `escape_like` does to one character. -/
def escChar (c : Char) : List Char :=
  if c = '\\' ∨ c = '%' ∨ c = '_' then ['\\', c] else [c]

theorem flatCat_flatCat {α β γ : Type} (f : β → List γ) (g : α → List β)
    (l : List α) :
    flatCat f (flatCat g l) = flatCat (fun x => flatCat f (g x)) l := by
  induction l with
  | nil => rfl
  | cons a t ih => simp [flatCat, flatCat_append, ih]

theorem flatCat_congr {α β : Type} (f g : α → List β) (l : List α)
    (h : ∀ x ∈ l, f x = g x) : flatCat f l = flatCat g l := by
  induction l with
  | nil => rfl
  | cons a t ih =>
    simp only [flatCat, h a (by simp)]
    rw [ih (fun x hx => h x (by simp [hx]))]

theorem escape_like_data (s : String) :
    (escape_like s).data = flatCat escChar s.data := by
  show replaceChar '_' ['\\', '_']
      (replaceChar '%' ['\\', '%']
        (replaceChar '\\' ['\\', '\\'] s.data)) = flatCat escChar s.data
  unfold replaceChar
  rw [flatCat_flatCat, flatCat_flatCat]
  apply flatCat_congr
  intro c _
  by_cases h1 : c = '\\'
  · subst h1; rfl
  · by_cases h2 : c = '%'
    · subst h2; rfl
    · by_cases h3 : c = '_'
      · subst h3; rfl
      · simp [h1, h2, h3, flatCat, escChar]

theorem likeMatch_cons_plain (c : Char) (ps : List Char) (d : Char)
    (ts : List Char) (h1 : c ≠ '%') (h2 : c ≠ '_') (h3 : c ≠ '\\') :
    likeMatch (c :: ps) (d :: ts) = if d = c then likeMatch ps ts else false := by
  conv_lhs => rw [likeMatch.eq_def]
  simp only [if_neg h1, if_neg h2, if_neg h3]

theorem likeMatch_cons_esc (q : Char) (ps : List Char) (d : Char)
    (ts : List Char) :
    likeMatch ('\\' :: q :: ps) (d :: ts) = if d = q then likeMatch ps ts else false := by
  conv_lhs => rw [likeMatch.eq_def]
  simp

theorem likeMatch_cons_nil (c : Char) (ps : List Char) (h1 : c ≠ '%') :
    likeMatch (c :: ps) [] = false := by
  conv_lhs => rw [likeMatch.eq_def]
  simp [h1]

theorem likeMatch_pct (ps : List Char) (t : List Char) :
    likeMatch ('%' :: ps) t = tryAll (likeMatch ps) t := by
  conv_lhs => rw [likeMatch.eq_def]
  simp

theorem tryAll_of_nil_true (f : List Char → Bool) (h : f [] = true)
    (u : List Char) : tryAll f u = true := by
  induction u with
  | nil => simpa [tryAll] using h
  | cons c ts ih => simp [tryAll, ih]

/-- A lone `%` pattern matches anything. -/
theorem likeMatch_percent (u : List Char) : likeMatch ['%'] u = true := by
  rw [likeMatch_pct]
  exact tryAll_of_nil_true _ rfl u

/-- The round-trip engine: a pattern that starts with the escaped text `s`
matches `t` iff `t` starts with `s` literally and the pattern's remainder
matches the rest of `t`. -/
theorem likeMatch_escaped (s : List Char) : ∀ (p t : List Char),
    likeMatch (flatCat escChar s ++ p) t = true ↔
      ∃ u, t = s ++ u ∧ likeMatch p u = true := by
  induction s with
  | nil =>
    intro p t
    constructor
    · intro h; exact ⟨t, rfl, by simpa [flatCat] using h⟩
    · rintro ⟨u, rfl, h⟩; simpa [flatCat] using h
  | cons c cs ih =>
    intro p t
    by_cases hs : c = '\\' ∨ c = '%' ∨ c = '_'
    · have hp : flatCat escChar (c :: cs) ++ p =
          '\\' :: c :: (flatCat escChar cs ++ p) := by
        simp [flatCat, escChar, hs]
      rw [hp]
      cases t with
      | nil =>
        rw [likeMatch_cons_nil '\\' _ (by decide)]
        constructor
        · intro h; simp at h
        · rintro ⟨u, hu, _⟩; simp at hu
      | cons d ts =>
        rw [likeMatch_cons_esc]
        by_cases hd : d = c
        · subst hd
          rw [if_pos rfl, ih p ts]
          constructor
          · rintro ⟨u, rfl, h⟩; exact ⟨u, rfl, h⟩
          · rintro ⟨u, hu, h⟩
            rw [List.cons_append, List.cons.injEq] at hu
            exact ⟨u, hu.2, h⟩
        · rw [if_neg hd]
          constructor
          · intro h; simp at h
          · rintro ⟨u, hu, _⟩
            rw [List.cons_append, List.cons.injEq] at hu
            exact absurd hu.1 hd
    · have hp : flatCat escChar (c :: cs) ++ p = c :: (flatCat escChar cs ++ p) := by
        simp [flatCat, escChar, hs]
      push_neg at hs
      obtain ⟨hs1, hs2, hs3⟩ := hs
      rw [hp]
      cases t with
      | nil =>
        rw [likeMatch_cons_nil c _ hs2]
        constructor
        · intro h; simp at h
        · rintro ⟨u, hu, _⟩; simp at hu
      | cons d ts =>
        rw [likeMatch_cons_plain c _ d ts hs2 hs3 hs1]
        by_cases hd : d = c
        · subst hd
          rw [if_pos rfl, ih p ts]
          constructor
          · rintro ⟨u, rfl, h⟩; exact ⟨u, rfl, h⟩
          · rintro ⟨u, hu, h⟩
            rw [List.cons_append, List.cons.injEq] at hu
            exact ⟨u, hu.2, h⟩
        · rw [if_neg hd]
          constructor
          · intro h; simp at h
          · rintro ⟨u, hu, _⟩
            rw [List.cons_append, List.cons.injEq] at hu
            exact absurd hu.1 hd

/-! ## C7: the LIKE-escaping round trip -/

/-- C7: for every string s, `escape_like s`, read as a LIKE pattern with
escape `\`, matches exactly the literal s; in particular for `a%b_c\d`
against itself and against its wildcard expansion `aXbYcZd`. -/
theorem escape_like_roundtrip :
    (∀ s t : String, likeMatchS (escape_like s) t = true ↔ t = s) ∧
    likeMatchS (escape_like "a%b_c\\d") "a%b_c\\d" = true ∧
    likeMatchS (escape_like "a%b_c\\d") "aXbYcZd" = false := by
  refine ⟨?_, by decide, by decide⟩
  intro s t
  rw [likeMatchS, escape_like_data]
  have h := likeMatch_escaped s.data [] t.data
  rw [List.append_nil] at h
  rw [h]
  constructor
  · rintro ⟨u, hu, hnil⟩
    have hue : u = [] := by
      cases u with
      | nil => rfl
      | cons a b => simp [likeMatch] at hnil
    subst hue
    rw [List.append_nil] at hu
    exact String.ext hu
  · rintro rfl
    exact ⟨[], by simp, rfl⟩

/-! ## C6: the "under" location filter -/

/-- C6: in "under" mode every builder binds `escape_like pwd ++ "%"` — the
directory escaped first, the wildcard appended after — so the pattern
matches exactly the strings with `pwd` as a literal prefix; in particular
with filter `/tmp/proj_%` the pwd `/tmp/proj_%` matches and the
wildcard-expansion `/tmp/proj_x` does not. -/
theorem under_filter_correct :
    (∀ d t : String,
      likeMatchS (escape_like d ++ "%") t = true ↔ ∃ u : String, t = d ++ u) ∧
    (∀ (args : ListArgs) (pwd : String) (env : Env) (cwd : Option String),
      args.under = true → args.pwd_override = some pwd →
      escape_like pwd ++ "%" ∈ (build_list_sql args env cwd).2) ∧
    (∀ (args : SummaryArgs) (pwd : String) (env : Env) (cwd : Option String),
      args.under = true → args.pwd_override = some pwd →
      escape_like pwd ++ "%" ∈ (build_summary_sql args env cwd).2) ∧
    (∀ (args : SearchArgs) (pwd : String) (env : Env) (cwd : Option String)
      (now : Int), args.under = true → args.pwd_override = some pwd →
      escape_like pwd ++ "%" ∈ (build_search_sql args env cwd now).2) ∧
    likeMatchS (escape_like "/tmp/proj_%" ++ "%") "/tmp/proj_%" = true ∧
    likeMatchS (escape_like "/tmp/proj_%" ++ "%") "/tmp/proj_x" = false := by
  refine ⟨?_, ?_, ?_, ?_, by decide, by decide⟩
  · intro d t
    have hdata : (escape_like d ++ "%").data = flatCat escChar d.data ++ ['%'] := by
      rw [String.data_append, escape_like_data]
    rw [likeMatchS, hdata, likeMatch_escaped d.data ['%'] t.data]
    constructor
    · rintro ⟨u, hu, -⟩
      refine ⟨String.mk u, String.ext ?_⟩
      rw [String.data_append]
      exact hu
    · rintro ⟨u, rfl⟩
      exact ⟨u.data, by rw [String.data_append], likeMatch_percent u.data⟩
  · intro args pwd env cwd hunder hover
    have hloc : location_filter args.here args.under args.pwd_override cwd =
        some (pwd, true) := by
      rw [hunder, hover]
      simp [location_filter]
    simp only [build_list_sql, hloc]
    simp [List.mem_append]
  · intro args pwd env cwd hunder hover
    have hloc : location_filter args.here args.under args.pwd_override cwd =
        some (pwd, true) := by
      rw [hunder, hover]
      simp [location_filter]
    simp only [build_summary_sql, hloc]
    simp [List.mem_append]
  · intro args pwd env cwd now hunder hover
    have hloc : location_filter args.here args.under args.pwd_override cwd =
        some (pwd, true) := by
      rw [hunder, hover]
      simp [location_filter]
    simp only [build_search_sql, hloc]
    simp [List.mem_append]

/-! ## C3: substring LIKE patterns in the three query builders -/

def listArgsGit : ListArgs :=
  { query := some "git", limit := 100, offset := 0, all := false,
    session := false, pwd_override := none, here := false, under := false }

def summaryArgsGit : SummaryArgs :=
  { query := some "git", limit := 100, starts := false, all := false,
    session := false, pwd := false, pwd_override := none, here := false,
    under := false }

def searchArgsGit : SearchArgs :=
  { query := "git", limit := 100, all := false, session := false,
    since_epoch := none, days := none, pwd_override := none, here := false,
    under := false }

/-- C3 at the failing input, query "git": `build_search_sql` binds the
pattern `%git%` (wildcards added after escaping, as the claim states), but
`build_list_sql` and `build_summary_sql` escape the already-wrapped string
and bind `\%git\%`, whose wildcards are escaped: it no longer matches the
command "git status", which contains "git", and instead matches only the
literal command text `%git%`. -/
theorem substring_like_bug :
    (build_list_sql listArgsGit noEnv none).2 = ["\\%git\\%", "100", "0"] ∧
    (build_summary_sql summaryArgsGit noEnv none).2 = ["\\%git\\%", "100"] ∧
    (build_search_sql searchArgsGit noEnv none 0).2 = ["%git%", "100"] ∧
    "git".data <:+: "git status".data ∧
    likeMatchS "%git%" "git status" = true ∧
    likeMatchS "\\%git\\%" "git status" = false ∧
    likeMatchS "\\%git\\%" "%git%" = true := by
  refine ⟨by decide, by decide, by decide, by decide, by decide, by decide, by decide⟩

/-! ## C8: the numeric-limit policy -/

theorem suffix_data (x y : String) : y.data <:+ (x ++ y).data := by
  rw [String.data_append]
  exact List.suffix_append _ _

theorem concat_two_getLast {α : Type} (l : List α) (a b : α) :
    (l ++ [a, b]).getLast? = some b ∧ (l ++ [a, b]).dropLast.getLast? = some a := by
  have h : l ++ [a, b] = (l ++ [a]) ++ [b] := by simp
  constructor
  · rw [h]; exact List.getLast?_concat _
  · rw [h, List.dropLast_concat]; exact List.getLast?_concat _

/-- C8 (amended): the summary, list, search, stats-top and stats-by-pwd
builders always emit a LIMIT clause and bind, in the limit position,
`u32::MAX` = 4294967295 when the show-all flag is set and the requested
limit otherwise; the stats-daily builder emits no LIMIT clause at all
(its argument struct has no limit). -/
theorem limit_policy :
    ∀ (a1 : SummaryArgs) (a2 : ListArgs) (a3 : SearchArgs) (a4 : StatsTopArgs)
      (a5 : StatsByPwdArgs) (a6 : StatsDailyArgs) (env : Env)
      (cwd : Option String) (now : Int),
      ("LIMIT ?".data <:+: (build_summary_sql a1 env cwd).1.data ∧
        (build_summary_sql a1 env cwd).2.getLast? =
          some (toString (if a1.all then u32Max else a1.limit))) ∧
      ("LIMIT ?".data <:+: (build_list_sql a2 env cwd).1.data ∧
        (build_list_sql a2 env cwd).2.dropLast.getLast? =
          some (toString (if a2.all then u32Max else a2.limit)) ∧
        (build_list_sql a2 env cwd).2.getLast? = some (toString a2.offset)) ∧
      ("LIMIT ?".data <:+: (build_search_sql a3 env cwd now).1.data ∧
        (build_search_sql a3 env cwd now).2.getLast? =
          some (toString (if a3.all then u32Max else a3.limit))) ∧
      ("LIMIT ?".data <:+: (build_stats_top_sql a4 env now).1.data ∧
        (build_stats_top_sql a4 env now).2.getLast? =
          some (toString (if a4.all then u32Max else a4.limit))) ∧
      ("LIMIT ?".data <:+: (build_stats_by_pwd_sql a5 env now).1.data ∧
        (build_stats_by_pwd_sql a5 env now).2.getLast? =
          some (toString (if a5.all then u32Max else a5.limit))) ∧
      ¬ ("LIMIT".data <:+: (build_stats_daily_sql a6 env now).1.data) := by
  intro a1 a2 a3 a4 a5 a6 env cwd now
  refine ⟨⟨?_, ?_⟩, ⟨?_, ?_, ?_⟩, ⟨?_, ?_⟩, ⟨?_, ?_⟩, ⟨?_, ?_⟩, ?_⟩
  · exact (suffix_data _ _).isInfix
  · exact List.getLast?_concat _
  · exact ((by decide : "LIMIT ?".data <+: "LIMIT ? OFFSET ?".data).isInfix).trans
      (suffix_data _ "LIMIT ? OFFSET ?").isInfix
  · exact (concat_two_getLast _ _ _).2
  · exact (concat_two_getLast _ _ _).1
  · exact (suffix_data _ _).isInfix
  · exact List.getLast?_concat _
  · exact (((by decide : ("LIMIT ?" : String).data <:+
      ("GROUP BY cmd ORDER BY cnt DESC, max(epoch) DESC LIMIT ?" : String).data).trans
      (suffix_data _ _))).isInfix
  · exact List.getLast?_concat _
  · exact (((by decide : ("LIMIT ?" : String).data <:+
      ("GROUP BY pwd, cmd ORDER BY cnt DESC, max(epoch) DESC LIMIT ?" : String).data).trans
      (suffix_data _ _))).isInfix
  · exact List.getLast?_concat _
  · cases h : session_filter a6.session env with
    | none => simp only [build_stats_daily_sql, h]; decide
    | some sp =>
      obtain ⟨salt, ppid⟩ := sp
      simp only [build_stats_daily_sql, h]
      decide

/-- Counterexample to C8 as stated: `build_stats_daily_sql` emits no LIMIT
clause at all. -/
theorem stats_daily_no_limit :
    ¬ ("LIMIT".data <:+:
      (build_stats_daily_sql { days := 30, all := true, session := false }
        noEnv 1700000000).1.data) := by
  decide

/-! ## C9: silent degradation of the session filter -/

/-- SDBH_SALT or SDBH_PPID is unset or does not parse as an integer. -/
def sessionEnvBad (env : Env) : Prop :=
  env "SDBH_SALT" = none ∨
  (∃ s, env "SDBH_SALT" = some s ∧ rustParseI64 s = none) ∨
  env "SDBH_PPID" = none ∨
  (∃ s, env "SDBH_PPID" = some s ∧ rustParseI64 s = none)

theorem session_filter_bad (env : Env) (h : sessionEnvBad env) (b : Bool) :
    session_filter b env = none := by
  cases b with
  | false => rfl
  | true =>
    unfold session_filter
    rcases h with h1 | ⟨s, hs, hp⟩ | h1 | ⟨s, hs, hp⟩
    · simp [h1]
    · simp [hs, hp]
    · cases hsalt : env "SDBH_SALT" with
      | none => simp [hsalt]
      | some s =>
        cases hps : rustParseI64 s with
        | none => simp [hsalt, hps]
        | some v => simp [hsalt, hps, h1]
    · cases hsalt : env "SDBH_SALT" with
      | none => simp [hsalt]
      | some s0 =>
        cases hps : rustParseI64 s0 with
        | none => simp [hsalt, hps]
        | some v => simp [hsalt, hps, hs, hp]

/-- C9: with the session flag on but SDBH_SALT/SDBH_PPID unset or
non-integer, every query builder returns exactly what it returns with the
session flag off: no salt/ppid predicate is added and no error occurs. -/
theorem session_silent_degradation (env : Env) (hbad : sessionEnvBad env) :
    ∀ (a1 : SummaryArgs) (a2 : ListArgs) (a3 : SearchArgs) (a4 : StatsTopArgs)
      (a5 : StatsByPwdArgs) (a6 : StatsDailyArgs) (cwd : Option String)
      (now : Int),
      build_summary_sql { a1 with session := true } env cwd =
        build_summary_sql { a1 with session := false } env cwd ∧
      build_list_sql { a2 with session := true } env cwd =
        build_list_sql { a2 with session := false } env cwd ∧
      build_search_sql { a3 with session := true } env cwd now =
        build_search_sql { a3 with session := false } env cwd now ∧
      build_stats_top_sql { a4 with session := true } env now =
        build_stats_top_sql { a4 with session := false } env now ∧
      build_stats_by_pwd_sql { a5 with session := true } env now =
        build_stats_by_pwd_sql { a5 with session := false } env now ∧
      build_stats_daily_sql { a6 with session := true } env now =
        build_stats_daily_sql { a6 with session := false } env now := by
  have h0 := session_filter_bad env hbad
  intro a1 a2 a3 a4 a5 a6 cwd now
  refine ⟨?_, ?_, ?_, ?_, ?_, ?_⟩
  · simp [build_summary_sql, h0]
  · simp [build_list_sql, h0]
  · simp [build_search_sql, h0]
  · simp [build_stats_top_sql, h0]
  · simp [build_stats_by_pwd_sql, h0]
  · simp [build_stats_daily_sql, h0]

/-- Witness for C9 at a concrete malformed environment. -/
theorem session_silent_degradation_witness :
    build_summary_sql { summaryArgsGit with session := true } badEnv none =
      build_summary_sql { summaryArgsGit with session := false } badEnv none ∧
    build_list_sql { listArgsGit with session := true } badEnv none =
      build_list_sql { listArgsGit with session := false } badEnv none :=
  have h := session_silent_degradation badEnv
    (Or.inr (Or.inl ⟨"zzz", by decide, by decide⟩))
    summaryArgsGit listArgsGit searchArgsGit
    { days := 30, limit := 50, all := false, session := false }
    { days := 30, limit := 50, all := false, session := false }
    { days := 30, all := false, session := false } none 0
  ⟨h.1, h.2.1⟩

/-! ## C10: the environment is consulted only for session filtering -/

/-- C10: with the session flag off, every builder's (sql, binds) output is
identical across arbitrary environments. -/
theorem env_noninterference :
    ∀ (a1 : SummaryArgs) (a2 : ListArgs) (a3 : SearchArgs) (a4 : StatsTopArgs)
      (a5 : StatsByPwdArgs) (a6 : StatsDailyArgs) (env env' : Env)
      (cwd : Option String) (now : Int),
      a1.session = false → a2.session = false → a3.session = false →
      a4.session = false → a5.session = false → a6.session = false →
      build_summary_sql a1 env cwd = build_summary_sql a1 env' cwd ∧
      build_list_sql a2 env cwd = build_list_sql a2 env' cwd ∧
      build_search_sql a3 env cwd now = build_search_sql a3 env' cwd now ∧
      build_stats_top_sql a4 env now = build_stats_top_sql a4 env' now ∧
      build_stats_by_pwd_sql a5 env now = build_stats_by_pwd_sql a5 env' now ∧
      build_stats_daily_sql a6 env now = build_stats_daily_sql a6 env' now := by
  intro a1 a2 a3 a4 a5 a6 env env' cwd now h1 h2 h3 h4 h5 h6
  refine ⟨?_, ?_, ?_, ?_, ?_, ?_⟩
  · simp [build_summary_sql, h1, session_filter]
  · simp [build_list_sql, h2, session_filter]
  · simp [build_search_sql, h3, session_filter]
  · simp [build_stats_top_sql, h4, session_filter]
  · simp [build_stats_by_pwd_sql, h5, session_filter]
  · simp [build_stats_daily_sql, h6, session_filter]

/-- Witness for C10: two concrete environments, session flag off. -/
theorem env_noninterference_witness :
    build_summary_sql summaryArgsGit badEnv none =
      build_summary_sql summaryArgsGit noEnv none ∧
    build_list_sql listArgsGit badEnv none = build_list_sql listArgsGit noEnv none :=
  have h := env_noninterference summaryArgsGit listArgsGit searchArgsGit
    { days := 30, limit := 50, all := false, session := false }
    { days := 30, limit := 50, all := false, session := false }
    { days := 30, all := false, session := false }
    badEnv noEnv none 0 rfl rfl rfl rfl rfl rfl
  ⟨h.1, h.2.1⟩

end Sdbh
